import Mathlib

/-!
Formal model of the wordware-mcp tool-discovery-and-execution bridge.

The repository bridges an MCP (Model Context Protocol) client to remotely
hosted Wordware apps.  This file gives a shallow embedding of the parts of
`src/utils/api.ts` and `src/index.ts` that carry the bridge's actual logic:

* a `JsonValue` type standing for JavaScript runtime values, together with
  the JavaScript truthiness, property-access and string-conversion
  semantics the source relies on (property access on `null`/`undefined`
  throws; everything else yields `undefined` for a missing field);
* the response unifier `executeTool` (the fallback ladder that turns a raw
  run result into MCP content blocks), split into `cleanedResultOf`
  (the nested-output unwrapping) and `unifyLadder` (the shape ladder);
* the polling loops `waitForRunCompletion` (both revisions present in the
  repository) and the `while (!isCompleted)` polling loop of
  `makeWordwareRequest`, with the network abstracted as a stream of poll
  outcomes indexed by attempt number;
* the stream-line sanitizers `sanitizeAndParseStreamResponse` (both
  revisions) and the newline-splitting stream loop;
* the schema normalizer `transformInputSchema` (both revisions), the zod
  `cleanSchema` mapping, and the tool-name sanitizer `formattedTitle`;
* the Google Search handler's query substitution.

Platform builtins that are not repository code (`fetch`, `JSON.parse`,
timers) are abstracted as parameters or streams; `JSON.stringify(v, null, 2)`
is modelled by a structural serializer (`jsonStringify`) whose exact output
string no theorem depends on.
-/

/-- A JavaScript runtime value, as far as the bridge observes it.
JavaScript `undefined` is kept distinct from `null` because the
source distinguishes them (`typeof`, property access).  Numbers are
modelled as integers: no code path in the bridge does arithmetic on them. -/
inductive JsonValue where
  | null
  | undefined
  | bool (b : Bool)
  | num (n : Int)
  | str (s : String)
  | arr (elems : List JsonValue)
  | obj (fields : List (String × JsonValue))
deriving Repr

/-- JavaScript truthiness (`if (v)`): `null`, `undefined`, `false`, `0`
and `""` are falsy; objects and arrays are always truthy. -/
def truthy : JsonValue → Bool
  | .null => false
  | .undefined => false
  | .bool b => b
  | .num n => n != 0
  | .str s => s != ""
  | .arr _ => true
  | .obj _ => true

/-- `v === null || v === undefined`. -/
def isNullish : JsonValue → Bool
  | .null => true
  | .undefined => true
  | _ => false

/-- `typeof v === "object" && v !== null` (arrays included, `null` excluded). -/
def isObjectLike : JsonValue → Bool
  | .obj _ => true
  | .arr _ => true
  | _ => false

/-- `Array.isArray(v)`. -/
def isArrayVal : JsonValue → Bool
  | .arr _ => true
  | _ => false

/-- `typeof v === "string"`. -/
def isStringVal : JsonValue → Bool
  | .str _ => true
  | _ => false

/-- The elements of an array value (`[]` for non-arrays; only applied to
values already known to be arrays). -/
def asArr : JsonValue → List JsonValue
  | .arr xs => xs
  | _ => []

/-- First-match association-list lookup: JavaScript object fields. -/
def lookupField (fields : List (String × JsonValue)) (k : String) : Option JsonValue :=
  match fields with
  | [] => none
  | (k2, v) :: rest => if k2 = k then some v else lookupField rest k

/-- The value of a decimal digit character. -/
def digitVal (c : Char) : Option Nat :=
  if decide ('0' ≤ c) && decide (c ≤ '9') then some (c.toNat - '0'.toNat) else none

/-- Accumulate a base-10 numeral. -/
def numIndexAux : List Char → Nat → Option Nat
  | [], acc => some acc
  | c :: cs, acc =>
    match digitVal c with
    | some d => numIndexAux cs (acc * 10 + d)
    | none => none

/-- A property key read as an array index: a nonempty string of decimal
digits (the shape `Object.keys` produces for array indices). -/
def numIndex (k : String) : Option Nat :=
  match k.toList with
  | [] => none
  | l => numIndexAux l 0

/-- JavaScript property read `v[k]`: throws a `TypeError` when the receiver
is `null` or `undefined`, yields the field (or `undefined` when absent) on
objects, indexes arrays by numeric string, and yields `undefined` on other
primitives (no named field the bridge reads exists on them). -/
def jsGet : JsonValue → String → Except String JsonValue
  | .null, k => .error ("TypeError: Cannot read properties of null (reading " ++ k ++ ")")
  | .undefined, k => .error ("TypeError: Cannot read properties of undefined (reading " ++ k ++ ")")
  | .obj fs, k => .ok ((lookupField fs k).getD .undefined)
  | .arr xs, k => .ok (match numIndex k with
      | some i => (xs.get? i).getD .undefined
      | none => .undefined)
  | _, _ => .ok .undefined

/-- Property read on a receiver already known not to be nullish (every use
site follows an access that would have thrown first). -/
def fieldOf (v : JsonValue) (k : String) : JsonValue :=
  match jsGet v k with
  | .ok w => w
  | .error _ => .undefined

/-- `Object.keys(v)`: field names of an object, index strings of an array. -/
def jsKeys : JsonValue → List String
  | .obj fs => fs.map (fun kv => kv.1)
  | .arr xs => (List.range xs.length).map (fun i => toString i)
  | _ => []

mutual

/-- JavaScript `String(v)` as used in template literals.  Arrays stringify
their elements joined by commas with nullish elements blank; plain objects
give the generic object tag. -/
def jsToString : JsonValue → String
  | .null => "null"
  | .undefined => "undefined"
  | .bool b => cond b "true" "false"
  | .num n => toString n
  | .str s => s
  | .arr xs => jsArrayToString xs
  | .obj _ => "[object Object]"

def jsArrayToString : List JsonValue → String
  | [] => ""
  | v :: rest =>
    (if isNullish v then "" else jsToString v)
      ++ (if rest.isEmpty then "" else ",") ++ jsArrayToString rest

end

mutual

/-- `JSON.stringify(v, null, 2)`.  The source only ever displays this
string inside a text block, and no property below inspects it, so the
model serializes structurally without reproducing the two-space
indentation or string escaping of the JavaScript builtin. -/
def jsonStringify : JsonValue → String
  | .null => "null"
  | .undefined => "undefined"
  | .bool b => cond b "true" "false"
  | .num n => toString n
  | .str s => "\"" ++ s ++ "\""
  | .arr xs => "[" ++ jsonStringifyElems xs ++ "]"
  | .obj fs => "\x7b" ++ jsonStringifyFields fs ++ "\x7d"

def jsonStringifyElems : List JsonValue → String
  | [] => ""
  | v :: rest =>
    jsonStringify v ++ (if rest.isEmpty then "" else ",") ++ jsonStringifyElems rest

def jsonStringifyFields : List (String × JsonValue) → String
  | [] => ""
  | (k, v) :: rest =>
    "\"" ++ k ++ "\":" ++ jsonStringify v
      ++ (if rest.isEmpty then "" else ",") ++ jsonStringifyFields rest

end

/-- `{ type: "text", text: v }` as built by `executeTool`. -/
def mkTextBlock (v : JsonValue) : JsonValue :=
  .obj [("type", .str "text"), ("text", v)]

/-- `{ type: "html", html: v }` as built by `executeTool`. -/
def mkHtmlBlock (v : JsonValue) : JsonValue :=
  .obj [("type", .str "html"), ("html", v)]

/-- `src/utils/api.ts` `executeTool`, lines 429-450: extract the actual
output from nested response structures.  `cleanedResult` starts as the raw
result; a truthy `result.output`, or a truthy `.output` of the first
nested object, replaces it.  Every property access here is guarded by
`typeof ... === "object" && ... !== null`, so this part cannot throw. -/
def cleanedResultOf (result : JsonValue) : JsonValue :=
  if isObjectLike result then
    if truthy (fieldOf result "output") then fieldOf result "output"
    else
      match (jsKeys result).head? with
      | some firstKey =>
        if firstKey != "" then
          if isObjectLike (fieldOf result firstKey) then
            if truthy (fieldOf (fieldOf result firstKey) "output") then
              fieldOf (fieldOf result firstKey) "output"
            else result
          else result
        else result
      | none => result
  else result

/-- The `data` branch of the ladder:
`typeof data === "string" ? data : JSON.stringify(data, null, 2)`. -/
def stringishOf (v : JsonValue) : JsonValue :=
  match v with
  | .str s => .str s
  | w => .str (jsonStringify w)

/-- `src/utils/api.ts` `executeTool`, lines 452-513: the fallback ladder
from the (possibly unwrapped) result to a content-block list.  The very
first step reads `cleanedResult.content`, which throws when the value is
nullish — hence the `Except`; once that read succeeds the receiver is not
nullish and the remaining reads cannot throw (`fieldOf`). -/
def unifyLadder (c : JsonValue) : Except String (List JsonValue) :=
  match jsGet c "content" with
  | .error m => .error m
  | .ok contentV =>
    .ok (
      if truthy contentV && isArrayVal contentV then asArr contentV
      else if truthy (fieldOf c "markdown") then [mkTextBlock (fieldOf c "markdown")]
      else if truthy (fieldOf c "html") then [mkHtmlBlock (fieldOf c "html")]
      else if truthy (fieldOf c "text") then [mkTextBlock (fieldOf c "text")]
      else if truthy (fieldOf c "data") then [mkTextBlock (stringishOf (fieldOf c "data"))]
      else if isStringVal c then [mkTextBlock c]
      else if isNullish c then [mkTextBlock (.str "No response received from the tool.")]
      else [mkTextBlock (.str (jsonStringify c))])

/-- The body of `executeTool` (lines 418-513) applied to the value the
awaited `executeApp` call produced: the `result.error` check (which
throws when the result is nullish), then unwrapping, then the ladder. -/
def executeToolBody (result : JsonValue) : Except String (List JsonValue) :=
  match jsGet result "error" with
  | .error m => .error m
  | .ok errV =>
    if truthy errV then .ok [mkTextBlock (.str ("Error: " ++ jsToString errV))]
    else unifyLadder (cleanedResultOf result)

/-- `executeTool` (lines 414-526) from the awaited run result onward: the
body, with the surrounding `catch` converting any thrown error into a
single text block.  The network call itself is abstracted into the
`result` parameter. -/
def executeTool (result : JsonValue) : List JsonValue :=
  match executeToolBody result with
  | .ok blocks => blocks
  | .error msg =>
    [mkTextBlock (.str ("An error occurred while executing the tool: " ++ msg))]

/-- The error conversion of the per-tool handler registered in
`src/index.ts` (lines 446-458): a thrown handler error becomes
`{ content: [ { type: "text", text: "Error in <name> handler: <msg>" } ] }`. -/
def handlerCatchResult (formattedName errMsg : String) : JsonValue :=
  .obj [("content",
    .arr [mkTextBlock (.str ("Error in " ++ formattedName ++ " handler: " ++ errMsg))])]

/-- The inner try/catch of the per-tool handler registered in
`src/index.ts` (lines 415-445), from the awaited `executeApp` call onward
(the outcome parameter is `.error msg` when `executeApp` threw, `.ok r`
when it resolved to `r`).  A falsy result raises
`Failed to execute app <name>`, caught by the same inner catch; a thrown
error becomes a one-text-block `content` object; *any truthy result —
including the `{ error: ... }` objects `executeApp` produces for
submission errors, run failures and timeouts — is returned verbatim*
(`return result`, line 428). -/
def toolHandlerResult (formattedName : String) (outcome : Except String JsonValue) :
    JsonValue :=
  match outcome with
  | .error msg =>
    .obj [("content",
      .arr [mkTextBlock (.str ("Error executing " ++ formattedName ++ ": " ++ msg))])]
  | .ok result =>
    if truthy result then result
    else
      .obj [("content",
        .arr [mkTextBlock (.str ("Error executing " ++ formattedName ++ ": "
          ++ "Failed to execute app " ++ formattedName))])]

/-! ## Polling (`waitForRunCompletion`, both revisions, and the
`makeWordwareRequest` polling loop)

The network is abstracted as a stream `polls : Nat → PollStep` giving, for
each status-fetch attempt in order, what `fetch` + `response.json()`
produced: a non-OK HTTP response, a thrown fetch error, or a parsed run
record (its `data.attributes.status`, `.outputs` and `.error`, with
`undefined` standing for an absent field). -/

/-- Outcome of one status fetch. -/
inductive PollStep where
  | notOk (code : Nat)
  | fetchThrow (msg : String)
  | resp (status : String) (outputs : JsonValue) (error : JsonValue)
deriving Repr

/-- `{ error: msg }`. -/
def errObj (msg : String) : JsonValue :=
  .obj [("error", .str msg)]

/-- One more status fetch was consumed before the recursive call's result
came back (the pattern match keeps evaluation of the pair shared). -/
def bump : JsonValue × Nat → JsonValue × Nat
  | (r, n) => (r, n + 1)

/-- The parsed poll response body (`pollData` / `runData`): the run record
whose `data.attributes` the loops read. -/
def pollDataOf (status : String) (outputs error : JsonValue) : JsonValue :=
  .obj [("data", .obj [("attributes",
    .obj [("status", .str status), ("outputs", outputs), ("error", error)])])]

/-- The loop body of the first-revision `waitForRunCompletion`
(`src/utils/api.ts` lines 361-406), by remaining iterations of
`for (let attempt = 0; attempt < 30; attempt++)`.  Returns the function's
result together with the number of status fetches performed.  A non-OK
response `continue`s; a thrown fetch error escapes to the function-level
`catch`, which returns an error object at once; `status === "completed"`
with truthy outputs returns the outputs; `status === "failed"` returns
`{ error: "Run failed" }`; anything else waits and retries. -/
def wfrcLoop1 (polls : Nat → PollStep) : Nat → Nat → JsonValue × Nat
  | 0, _ => (errObj "Run timed out", 0)
  | fuel + 1, i =>
    match polls i with
    | .notOk _ => bump (wfrcLoop1 polls fuel (i + 1))
    | .fetchThrow msg => (errObj ("Error waiting for run completion: " ++ msg), 1)
    | .resp status outputs _ =>
      if status == "completed" && truthy outputs then (outputs, 1)
      else if status == "failed" then (errObj "Run failed", 1)
      else bump (wfrcLoop1 polls fuel (i + 1))

/-- First-revision `waitForRunCompletion`: 30 attempts starting at 0. -/
def waitForRunCompletion1 (polls : Nat → PollStep) : JsonValue × Nat :=
  wfrcLoop1 polls 30 0

/-- The loop body of the later-revision `waitForRunCompletion`
(`src/utils/api.ts` lines 1397-1442), `while (retryCount < MAX_RETRIES)`
with `MAX_RETRIES = 30`.  Here the `try` sits inside the loop: both a
non-OK response and a thrown fetch error wait and retry, consuming one
attempt.  `status === "succeeded"` returns `outputs || {}`;
`status === "failed"` returns `{ error: error || "Run failed" }`;
exhaustion returns `{ error: "Timeout waiting for run completion" }`. -/
def wfrcLoop3 (polls : Nat → PollStep) : Nat → Nat → JsonValue × Nat
  | 0, _ => (errObj "Timeout waiting for run completion", 0)
  | fuel + 1, i =>
    match polls i with
    | .notOk _ => bump (wfrcLoop3 polls fuel (i + 1))
    | .fetchThrow _ => bump (wfrcLoop3 polls fuel (i + 1))
    | .resp status outputs error =>
      if status == "succeeded" then ((if truthy outputs then outputs else .obj []), 1)
      else if status == "failed" then
        (.obj [("error", if truthy error then error else .str "Run failed")], 1)
      else bump (wfrcLoop3 polls fuel (i + 1))

/-- Later-revision `waitForRunCompletion`: 30 retries starting at 0. -/
def waitForRunCompletion3 (polls : Nat → PollStep) : JsonValue × Nat :=
  wfrcLoop3 polls 30 0

/-- The `while (!isCompleted)` polling loop of `makeWordwareRequest`
(`src/utils/api.ts` lines 214-241), given `fuel` loop iterations to run.
The first component is `none` while the loop is still running when the
fuel runs out, and `some r` when the loop resolved (where `r` is the
overall result of `makeWordwareRequest`: `some data` on completion,
`none` — the function's `null` — when a non-OK response or a failed run
threw into the outer catch).  The second component counts status fetches
performed.  Note the loop has no attempt bound of its own. -/
def mwrPollLoop (polls : Nat → PollStep) : Nat → Nat → Option (Option JsonValue) × Nat
  | 0, _ => (none, 0)
  | fuel + 1, i =>
    match polls i with
    | .notOk _ => (some none, 1)
    | .fetchThrow _ => (some none, 1)
    | .resp status outputs error =>
      if status == "completed" then (some (some (pollDataOf status outputs error)), 1)
      else if status == "failed" then (some none, 1)
      else
        match mwrPollLoop polls fuel (i + 1) with
        | (r, n) => (r, n + 1)

/-! ## Stream-line sanitizing (`sanitizeAndParseStreamResponse`, both
revisions) and the newline-delimited stream loop -/

/-- The whitespace class of JavaScript regular expressions and
`String.prototype.trim` (ASCII part plus the Unicode space separators the
spec of `\s` names). -/
def wsChars : List Char :=
  [' ', '\t', '\n', '\r', '\x0b', '\x0c', ' ', ' ',
   ' ', ' ', ' ', ' ', ' ', ' ', ' ',
   ' ', ' ', ' ', ' ', ' ', ' ', ' ',
   ' ', '　', '﻿']

/-- `c` matches `\s`. -/
def isJsWhitespace (c : Char) : Bool :=
  wsChars.contains c

/-- All suffixes of `l` that follow a `]` occurring before the first
newline — the candidate continuations after one lazy `\[.*?\]` bracket
group (`.` does not match a newline; with backtracking, the group can end
at any such `]`). -/
def closeTails : List Char → List (List Char)
  | [] => []
  | c :: cs =>
    if c = '\n' then []
    else if c = ']' then cs :: closeTails cs
    else closeTails cs

/-- The line matches `/^\[.*?\] \[.*?\] \[.*?\]/`: three bracketed groups
separated by single spaces at the start of the line. -/
def bracketLogLine (l : List Char) : Bool :=
  match l with
  | '[' :: rest =>
    (closeTails rest).any (fun t1 =>
      match t1 with
      | ' ' :: '[' :: r2 =>
        (closeTails r2).any (fun t2 =>
          match t2 with
          | ' ' :: '[' :: r3 => !(closeTails r3).isEmpty
          | _ => false)
      | _ => false)
  | _ => false

/-- The log-line test of `sanitizeAndParseStreamResponse`: the bracketed
`[timestamp] [LEVEL] [context]` pattern or one of the four legacy level
tags at the start of the line. -/
def startsWithLogTag (line : String) : Bool :=
  bracketLogLine line.toList
    || "INFO:".toList.isPrefixOf line.toList
    || "DEBUG:".toList.isPrefixOf line.toList
    || "WARN:".toList.isPrefixOf line.toList
    || "ERROR:".toList.isPrefixOf line.toList

/-- First-revision `sanitizeAndParseStreamResponse` (`src/utils/api.ts`
lines 93-113): skip blank lines and log lines — and then the function body
ends.  There is no `JSON.parse` and no `return` on the remaining path, so
a non-blank, non-log line yields `undefined` (here `none`), despite the
doc comment "Parsed JSON object or null if invalid". -/
def sanitizeAndParseStreamResponse1 (line : String) : Option JsonValue :=
  if line.toList.all isJsWhitespace then none
  else if startsWithLogTag line then none
  else none

/-- Later-revision `sanitizeAndParseStreamResponse` (lines 1171-1195):
same skips, then `JSON.parse(line)` with the `catch` turning a parse
error into `null`.  `JSON.parse` is a platform builtin, abstracted as the
`jsonParseFn` parameter (`none` = the builtin threw). -/
def sanitizeAndParseStreamResponse3 (jsonParseFn : String → Option JsonValue)
    (line : String) : Option JsonValue :=
  if line.toList.all isJsWhitespace then none
  else if startsWithLogTag line then none
  else jsonParseFn line

/-- `String.prototype.trim`. -/
def jsTrim (s : String) : String :=
  (((s.toList.dropWhile isJsWhitespace).reverse.dropWhile isJsWhitespace).reverse).asString

/-- The stream loop's record splitting (`src/utils/api.ts` lines 177-204):
characters are buffered and a record is processed at each newline, so the
completed records are exactly the segments terminated by a `\n`; a final
unterminated buffer is never processed. -/
def splitNlAux : List Char → List Char → List (List Char)
  | _, [] => []
  | buf, c :: cs =>
    if c = '\n' then buf.reverse :: splitNlAux [] cs
    else splitNlAux (c :: buf) cs

/-- The newline-terminated records of the stream text. -/
def completedLines (text : String) : List String :=
  (splitNlAux [] text.toList).map List.asString

/-- One record through the stream loop: trim, skip if empty, sanitize, and
forward to `onStream` only when the sanitized content is truthy. -/
def forwardedOfLine (sanitize : String → Option JsonValue) (seg : String) :
    Option JsonValue :=
  let line := jsTrim seg
  if line.toList.isEmpty then none
  else
    match sanitize line with
    | some v => if truthy v then some v else none
    | none => none

/-- The values the first-revision stream loop passes to the `onStream`
callback, in order, for a given stream text. -/
def forwardedContents1 (text : String) : List JsonValue :=
  (completedLines text).filterMap (forwardedOfLine sanitizeAndParseStreamResponse1)

/-- The values the later-revision stream loop passes to `onStream`. -/
def forwardedContents3 (jsonParseFn : String → Option JsonValue) (text : String) :
    List JsonValue :=
  (completedLines text).filterMap
    (forwardedOfLine (sanitizeAndParseStreamResponse3 jsonParseFn))

/-! ## Schema normalization (`transformInputSchema`, both revisions),
the zod `cleanSchema` mapping, and tool-name sanitization -/

/-- A property of a raw remote input schema: its declared `type` and
`description`, either possibly absent.  Property values are schema
objects in the source, hence always truthy as a whole. -/
structure PropVal where
  type : Option String
  description : Option String
deriving Repr, DecidableEq

/-- A raw remote input schema as `transformInputSchema` receives it:
`properties` and `required` may each be absent. -/
structure InSchema where
  properties : Option (List (String × PropVal))
  required : Option (List String)
deriving Repr, DecidableEq

/-- A property of the transformed schema (first revision: type plus
description). -/
structure OutProp where
  type : String
  description : String
deriving Repr, DecidableEq

/-- The transformed schema of the first-revision `transformInputSchema`. -/
structure OutSchema where
  type : String
  properties : List (String × OutProp)
  required : List String
deriving Repr, DecidableEq

/-- A property of the later-revision transformed schema (descriptions
removed). -/
structure OutPropV2 where
  type : String
deriving Repr, DecidableEq

/-- The later-revision transformed schema (no `required` field). -/
structure OutSchemaV2 where
  type : String
  properties : List (String × OutPropV2)
deriving Repr, DecidableEq

/-- `value.type || "string"`: an absent or empty declared type falls back
to `"string"`; any other declared type passes through unchanged. -/
def typeOrDefault (t : Option String) : String :=
  match t with
  | some s => if s == "" then "string" else s
  | none => "string"

/-- `value.description || dflt`. -/
def descOr (d : Option String) (dflt : String) : String :=
  match d with
  | some s => if s == "" then dflt else s
  | none => dflt

/-- First-match lookup among schema properties. -/
def lookupProp (props : List (String × PropVal)) (k : String) : Option PropVal :=
  match props with
  | [] => none
  | (k2, v) :: rest => if k2 = k then some v else lookupProp rest k

/-- `toolName.includes(pat)`. -/
def containsSubstr (pat s : String) : Bool :=
  s.toList.tails.any (fun t => pat.toList.isPrefixOf t)

/-- `transformInputSchema` of `src/index.ts` (lines 165-242).  If the
schema has properties and they are not solely the `random_string`
sentinel, each non-sentinel property is kept with
`type: value.type || "string"` and a defaulted description, and
`required` is the upstream list minus the sentinel, or else every kept
property name.  Otherwise a fixed one-string-property schema is produced,
chosen by tool name (`Google_Search` → `query`, `LinkedIn_Profile` →
`profile_url`, otherwise `input`). -/
def transformInputSchema (inputSchema : Option InSchema) (toolName : String) :
    Option OutSchema :=
  match inputSchema with
  | none => none
  | some s =>
    let kept : Option (List (String × OutProp)) :=
      match s.properties with
      | some props =>
        if (lookupProp props "random_string").isSome && props.length == 1 then none
        else
          let properties :=
            (props.filter (fun kv => kv.1 != "random_string")).map
              (fun kv =>
                (kv.1, OutProp.mk (typeOrDefault kv.2.type)
                  (descOr kv.2.description ("Input parameter " ++ kv.1))))
          if properties.length > 0 then some properties else none
      | none => none
    match kept with
    | some properties =>
      some (OutSchema.mk "object" properties
        (match s.required with
         | some req => req.filter (fun r => r != "random_string")
         | none => properties.map (fun kv => kv.1)))
    | none =>
      if containsSubstr "Google_Search" toolName then
        some (OutSchema.mk "object"
          [("query", OutProp.mk "string" "Search query for Google")] ["query"])
      else if containsSubstr "LinkedIn_Profile" toolName then
        some (OutSchema.mk "object"
          [("profile_url", OutProp.mk "string" "LinkedIn profile URL to fetch data from")]
          ["profile_url"])
      else
        some (OutSchema.mk "object"
          [("input", OutProp.mk "string" "Input for the tool")] ["input"])

/-- The default one-property schema of the later-revision
`transformInputSchema`. -/
def defaultSchemaV2 : Option OutSchemaV2 :=
  some (OutSchemaV2.mk "object" [("input", OutPropV2.mk "string")])

/-- The later-revision `transformInputSchema` (`src/index.ts` of v1.1.5,
lines 636-677): no name-based special cases, descriptions dropped, no
`required`; all properties (the sentinel is not skipped inside the loop)
are kept when the schema is not solely the sentinel; otherwise the
default `input` schema. -/
def transformInputSchemaV2 (inputSchema : Option InSchema) (_toolName : String) :
    Option OutSchemaV2 :=
  match inputSchema with
  | none => none
  | some s =>
    match s.properties with
    | some props =>
      if (lookupProp props "random_string").isSome && props.length == 1 then
        defaultSchemaV2
      else
        let properties := props.map (fun kv => (kv.1, OutPropV2.mk (typeOrDefault kv.2.type)))
        if properties.length > 0 then some (OutSchemaV2.mk "object" properties)
        else defaultSchemaV2
    | none => defaultSchemaV2

/-- One zod field of the registration schema: its mapped primitive type
and its description. -/
structure ZodField where
  ztype : String
  zdesc : String
deriving Repr, DecidableEq

/-- One entry of the zod `cleanSchema` built at registration time
(`src/index.ts` of v1.1.5, lines 779-802): a declared type of exactly
`"string"`, `"number"` or `"boolean"` maps to the matching zod validator;
anything else — unknown types and absent types alike — defaults to a
string validator. -/
def cleanSchemaEntry (prop : PropVal) : ZodField :=
  if prop.type == some "string" then
    ZodField.mk "string" (descOr prop.description "string input for the tool")
  else if prop.type == some "number" then
    ZodField.mk "number" (descOr prop.description "number input for the tool")
  else if prop.type == some "boolean" then
    ZodField.mk "boolean" (descOr prop.description "boolean input for the tool")
  else
    ZodField.mk "string" (descOr prop.description "string input for the tool")

/-- The zod registration schema: `cleanSchemaEntry` over every property. -/
def cleanSchema (props : List (String × PropVal)) : List (String × ZodField) :=
  props.map (fun kv => (kv.1, cleanSchemaEntry kv.2))

/-- `c` is in the tool-name character class `[a-zA-Z0-9_-]`. -/
def isAllowedChar (c : Char) : Bool :=
  (decide ('a' ≤ c) && decide (c ≤ 'z'))
    || (decide ('A' ≤ c) && decide (c ≤ 'Z'))
    || (decide ('0' ≤ c) && decide (c ≤ '9'))
    || decide (c = '_') || decide (c = '-')

/-- `title.replace(/\s+/g, "_")` as a left-to-right scan: the flag records
whether the previous character was part of a whitespace run (in which
case further whitespace is absorbed into the same `_`). -/
def replaceWsRunsAux : Bool → List Char → List Char
  | _, [] => []
  | inRun, c :: cs =>
    if isJsWhitespace c then
      if inRun then replaceWsRunsAux true cs
      else '_' :: replaceWsRunsAux true cs
    else c :: replaceWsRunsAux false cs

/-- `src/index.ts` line 279 (and v1.1.5 lines 740-742):
`title.replace(/\s+/g, "_").replace(/[^a-zA-Z0-9_-]/g, "")`. -/
def formattedTitle (title : String) : String :=
  ((replaceWsRunsAux false title.toList).filter isAllowedChar).asString

/-- `s` matches the MCP tool-name pattern `^[a-zA-Z0-9_-]{1,64}$` quoted
in the source comment above `formattedTitle`. -/
def matchesNamePattern (s : String) : Bool :=
  s.toList.all isAllowedChar && 1 ≤ s.length && s.length ≤ 64

/-! ## The Google Search handler's query substitution (`src/index.ts`
lines 310-331) -/

/-- `const safeParams = typeof params === "object" && params !== null ?
params : {}; const query = safeParams.query || "No query provided";`. -/
def googleSearchQuery (params : JsonValue) : JsonValue :=
  let safeParams := if isObjectLike params then params else .obj []
  let q := fieldOf safeParams "query"
  if truthy q then q else .str "No query provided"

/-- The inputs object the Google Search handler submits:
`executeApp(appId, { query })`. -/
def googleSearchRunInputs (params : JsonValue) : JsonValue :=
  .obj [("query", googleSearchQuery params)]

/-! ## Theorems -/

/-- Every branch of the fallback ladder other than the content
pass-through yields a single block; the pass-through yields the result's
own `content` array verbatim; on a nullish input the very first property
read throws. -/
theorem unifyLadder_shape (c : JsonValue) :
    (∃ m, unifyLadder c = .error m)
    ∨ (∃ b, unifyLadder c = .ok [b])
    ∨ (∃ xs, jsGet c "content" = .ok (JsonValue.arr xs) ∧ unifyLadder c = .ok xs) := by
  unfold unifyLadder
  cases hc : jsGet c "content" with
  | error m => exact Or.inl ⟨m, rfl⟩
  | ok contentV =>
    by_cases h1 : (truthy contentV && isArrayVal contentV) = true
    · have h2 := h1
      rw [Bool.and_eq_true] at h2
      obtain ⟨xs, rfl⟩ : ∃ xs, contentV = JsonValue.arr xs := by
        cases contentV
        case arr xs => exact ⟨xs, rfl⟩
        all_goals simp [isArrayVal] at h2
      refine Or.inr (Or.inr ⟨xs, rfl, ?_⟩)
      dsimp only
      rw [if_pos h1]
      rfl
    · refine Or.inr (Or.inl ?_)
      dsimp only
      rw [if_neg h1]
      repeat first
        | exact ⟨_, rfl⟩
        | split

/-- The body of `executeTool` either throws, or produces one block, or
passes an array-shaped `content` field of the cleaned result through. -/
theorem executeToolBody_shape (result : JsonValue) :
    (∃ m, executeToolBody result = .error m)
    ∨ (∃ b, executeToolBody result = .ok [b])
    ∨ (∃ xs, jsGet (cleanedResultOf result) "content" = .ok (JsonValue.arr xs)
        ∧ executeToolBody result = .ok xs) := by
  unfold executeToolBody
  cases he : jsGet result "error" with
  | error m => exact Or.inl ⟨m, rfl⟩
  | ok errV =>
    by_cases ht : truthy errV = true
    · exact Or.inr (Or.inl ⟨_, by dsimp only; rw [if_pos ht]⟩)
    · dsimp only
      rw [if_neg ht]
      exact unifyLadder_shape (cleanedResultOf result)

/-- C9 (counterexample): a raw run result that carries its own empty
`content` array is passed through verbatim, so an empty content-block
list crosses the tool boundary — the returned sequence is not always
non-empty, refuting the claim as stated. -/
theorem executeTool_empty_content_passthrough :
    executeTool (JsonValue.obj [("content", JsonValue.arr [])]) = [] := rfl

/-- C9 (amended): for every raw run result, the value returned across the
tool boundary is either a single content block — every branch of the
unifier and both catch conversions produce exactly one `Text`/`Html`
block — or the raw result's own array-shaped `content` field passed
through verbatim (which may be empty or hold arbitrary entries). -/
theorem executeTool_singleton_or_passthrough (result : JsonValue) :
    (∃ b, executeTool result = [b])
    ∨ (∃ xs, jsGet (cleanedResultOf result) "content" = .ok (JsonValue.arr xs)
        ∧ executeTool result = xs) := by
  rcases executeToolBody_shape result with ⟨m, hm⟩ | ⟨b, hb⟩ | ⟨xs, hx, hb⟩
  · exact Or.inl ⟨_, by unfold executeTool; rw [hm]⟩
  · exact Or.inl ⟨b, by unfold executeTool; rw [hb]⟩
  · exact Or.inr ⟨xs, hx, by unfold executeTool; rw [hb]⟩

/-- C6 (code bug): on a nullish raw run result the unifier never reaches
its own `"No response received from the tool."` branch.  `executeTool`
reads `result.error` before any null check, so a `null`/`undefined`
result throws a `TypeError` and the `catch` returns the generic
`An error occurred...` text instead of the placeholder; even the ladder
alone throws at its first read, `cleanedResult.content`.  The placeholder
branch (api.ts line 504) is unreachable for the very input it was written
for. -/
theorem executeTool_null_yields_catch_text :
    executeTool JsonValue.null
      = [mkTextBlock (.str ("An error occurred while executing the tool: "
          ++ "TypeError: Cannot read properties of null (reading error)"))]
    ∧ executeTool JsonValue.undefined
      = [mkTextBlock (.str ("An error occurred while executing the tool: "
          ++ "TypeError: Cannot read properties of undefined (reading error)"))]
    ∧ unifyLadder JsonValue.null
      = .error "TypeError: Cannot read properties of null (reading content)"
    ∧ unifyLadder JsonValue.undefined
      = .error "TypeError: Cannot read properties of undefined (reading content)" :=
  ⟨rfl, rfl, rfl, rfl⟩

/-- C1 (counterexample): the cited per-tool handler does not convert
every failure into a content-block list.  `executeApp` delivers
submission errors, run failures and timeouts as truthy `{ error: ... }`
objects, so `if (!result)` does not fire and `return result` sends the
raw error object — which has no `content` field and contains no `Text`
block — across the tool boundary verbatim, refuting the claim as stated
on this cited path. -/
theorem toolHandler_error_object_passthrough :
    toolHandlerResult "My_Tool" (Except.ok (errObj "API error: 500 Internal Server Error"))
      = errObj "API error: 500 Internal Server Error"
    ∧ fieldOf (toolHandlerResult "My_Tool"
        (Except.ok (errObj "API error: 500 Internal Server Error"))) "content"
      = JsonValue.undefined :=
  ⟨rfl, rfl⟩

/-- C1 (amended): no failure crosses the tool boundary as a thrown
exception, and every failure that is *converted* is converted into a
single `Text` block: a run result carrying a truthy `error` field, or an
exception thrown inside `executeTool`'s body, yields one `Text` content
block from `executeTool` (the model's totality mirrors the enclosing
`catch`); in the registered handler, an exception thrown by `executeApp`
or a falsy result becomes a one-`Text`-block `content` object via the
inner catch, and the outer handler catch likewise wraps thrown errors.
However, the `src/index.ts` handler returns any *truthy* `executeApp`
result verbatim, so a submission error, run failure or timeout that
arrives as a truthy `{ error: ... }` object crosses the boundary as that
raw object rather than as a content-block list. -/
theorem executeTool_failure_text_block (result : JsonValue) (t : String)
    (h : (∃ e, jsGet result "error" = Except.ok e ∧ truthy e = true)
       ∨ (∃ m, executeToolBody result = Except.error m)) :
    (∃ s, executeTool result = [mkTextBlock (JsonValue.str s)])
    ∧ (∀ m, toolHandlerResult t (Except.error m)
        = JsonValue.obj [("content",
            JsonValue.arr [mkTextBlock (JsonValue.str ("Error executing " ++ t ++ ": " ++ m))])])
    ∧ (∀ r, truthy r = false → toolHandlerResult t (Except.ok r)
        = JsonValue.obj [("content",
            JsonValue.arr [mkTextBlock (JsonValue.str ("Error executing " ++ t ++ ": "
              ++ "Failed to execute app " ++ t))])])
    ∧ (∀ r, truthy r = true → toolHandlerResult t (Except.ok r) = r)
    ∧ (∀ m, handlerCatchResult t m
        = JsonValue.obj [("content",
            JsonValue.arr [mkTextBlock (JsonValue.str ("Error in " ++ t ++ " handler: " ++ m))])]) := by
  refine ⟨?_, fun m => rfl, ?_, ?_, fun m => rfl⟩
  · rcases h with ⟨e, he, ht⟩ | ⟨m, hm⟩
    · refine ⟨"Error: " ++ jsToString e, ?_⟩
      unfold executeTool executeToolBody
      rw [he]
      dsimp only
      rw [if_pos ht]
    · refine ⟨"An error occurred while executing the tool: " ++ m, ?_⟩
      unfold executeTool
      rw [hm]
  · intro r hr
    unfold toolHandlerResult
    dsimp only
    rw [hr]
    rfl
  · intro r hr
    unfold toolHandlerResult
    dsimp only
    rw [hr]
    rfl

/-- Witness for C1 at a concrete failing result `{ error: "boom" }` and a
concrete tool name: the conversion path yields a single `Text` block and
the handler passes the truthy error object through verbatim. -/
theorem executeTool_failure_text_block_witness :
    ((∃ e, jsGet (JsonValue.obj [("error", JsonValue.str "boom")]) "error" = Except.ok e
        ∧ truthy e = true)
      ∨ (∃ m, executeToolBody (JsonValue.obj [("error", JsonValue.str "boom")])
          = Except.error m))
    ∧ truthy (errObj "boom") = true
    ∧ (∃ s, executeTool (JsonValue.obj [("error", JsonValue.str "boom")])
        = [mkTextBlock (JsonValue.str s)])
    ∧ toolHandlerResult "My_Tool" (Except.ok (errObj "boom")) = errObj "boom" :=
  have h : (∃ e, jsGet (JsonValue.obj [("error", JsonValue.str "boom")]) "error" = Except.ok e
        ∧ truthy e = true)
      ∨ (∃ m, executeToolBody (JsonValue.obj [("error", JsonValue.str "boom")])
          = Except.error m) :=
    Or.inl ⟨JsonValue.str "boom", rfl, rfl⟩
  have hc := executeTool_failure_text_block (JsonValue.obj [("error", JsonValue.str "boom")]) "My_Tool" h
  ⟨h, rfl, hc.1, hc.2.2.2.1 (errObj "boom") rfl⟩

/-- A poll outcome that is not terminal for the first-revision loop and
does not throw: a non-OK response, or a parsed record that neither
completes with truthy outputs nor fails. -/
def nonTerminalStep1 : PollStep → Prop
  | .notOk _ => True
  | .fetchThrow _ => False
  | .resp s outputs _ => ¬(s = "completed" ∧ truthy outputs = true) ∧ s ≠ "failed"

/-- When every poll in range is non-terminal, the first-revision loop
consumes all its fuel, one fetch per iteration, and times out. -/
theorem wfrcLoop1_all_nonterminal (polls : Nat → PollStep) :
    ∀ (fuel i : Nat), (∀ j, j < fuel → nonTerminalStep1 (polls (i + j))) →
      wfrcLoop1 polls fuel i = (errObj "Run timed out", fuel) := by
  intro fuel
  induction fuel with
  | zero => intro i _; rfl
  | succ n ih =>
    intro i h
    have h0 : nonTerminalStep1 (polls i) := by
      have := h 0 (Nat.succ_pos n)
      simpa using this
    have hrest : ∀ j, j < n → nonTerminalStep1 (polls (i + 1 + j)) := by
      intro j hj
      have := h (j + 1) (by omega)
      have harith : i + (j + 1) = i + 1 + j := by omega
      rwa [harith] at this
    have hrec := ih (i + 1) hrest
    unfold wfrcLoop1
    cases hp : polls i with
    | notOk code => rw [hrec]; rfl
    | fetchThrow msg => rw [hp] at h0; exact absurd h0 (by simp [nonTerminalStep1])
    | resp s outputs error =>
      rw [hp] at h0
      have hc : (s == "completed" && truthy outputs) = false := by
        rcases h0 with ⟨hnc, _⟩
        by_contra hb
        rw [Bool.not_eq_false, Bool.and_eq_true, beq_iff_eq] at hb
        exact hnc ⟨hb.1, hb.2⟩
      have hf : (s == "failed") = false := by
        rcases h0 with ⟨_, hnf⟩
        by_contra hb
        rw [Bool.not_eq_false, beq_iff_eq] at hb
        exact hnf hb
      dsimp only
      rw [hc, hf]
      simp only [Bool.false_eq_true, if_false]
      rw [hrec]
      rfl

/-- The always-pending poll stream. -/
def pendingStream : Nat → PollStep :=
  fun _ => PollStep.resp "pending" JsonValue.null JsonValue.undefined

/-- The `makeWordwareRequest` polling loop never resolves an
always-pending run, whatever fuel it is given. -/
theorem mwrPollLoop_pending_never_resolves :
    ∀ (fuel i : Nat), (mwrPollLoop pendingStream fuel i).1 = none := by
  intro fuel
  induction fuel with
  | zero => intro i; rfl
  | succ n ih =>
    intro i
    unfold mwrPollLoop
    simp only [pendingStream]
    have := ih (i + 1)
    cases hm : mwrPollLoop pendingStream n (i + 1) with
    | mk r c =>
      rw [hm] at this
      simp only at this
      subst this
      rfl

/-- C2 (counterexample): the `makeWordwareRequest` polling loop has no
attempt bound: on a run that never reports a terminal status it has
performed 100 status fetches after 100 iterations and is still
unresolved — it neither stops at 30 attempts nor produces a timed-out
outcome, refuting the claim as stated for this polling phase. -/
theorem mwrPollLoop_unbounded_after_100 :
    mwrPollLoop pendingStream 100 0 = (none, 100) := by rfl

/-- C2 (amended): for a run whose status fetches never return a terminal
record (and do not throw), the first-revision `waitForRunCompletion`
performs exactly 30 status fetches — in particular at most 30 — and
resolves to the timed-out outcome `{ error: "Run timed out" }`; this
polling always terminates.  The `makeWordwareRequest` polling loop, by
contrast, has no attempt bound: it stays unresolved on an always-pending
run for every amount of fuel. -/
theorem waitForRunCompletion_timeout_after_30 (polls : Nat → PollStep)
    (h : ∀ j, j < 30 → nonTerminalStep1 (polls j)) :
    waitForRunCompletion1 polls = (errObj "Run timed out", 30)
    ∧ (∀ fuel i, (mwrPollLoop pendingStream fuel i).1 = none) := by
  constructor
  · have := wfrcLoop1_all_nonterminal polls 30 0 (by intro j hj; simpa using h j hj)
    exact this
  · exact mwrPollLoop_pending_never_resolves

/-- The all-non-OK poll stream. -/
def allNotOkStream : Nat → PollStep :=
  fun _ => PollStep.notOk 500

/-- Witness for C2 at the concrete stream whose every status fetch
returns a non-OK response. -/
theorem waitForRunCompletion_timeout_after_30_witness :
    (∀ j, j < 30 → nonTerminalStep1 (allNotOkStream j))
    ∧ (waitForRunCompletion1 allNotOkStream = (errObj "Run timed out", 30)
        ∧ (∀ fuel i, (mwrPollLoop pendingStream fuel i).1 = none)) :=
  have h : ∀ j, j < 30 → nonTerminalStep1 (allNotOkStream j) := fun _ _ => trivial
  ⟨h, waitForRunCompletion_timeout_after_30 allNotOkStream h⟩

/-- C7 (counterexample): in the first-revision `waitForRunCompletion` a
*thrown* status fetch does not keep the engine polling: the function-level
`catch` resolves the invocation immediately after that single attempt,
with an error outcome — refuting "remains in Polling ... and does not
resolve the invocation to a terminal outcome on that failure alone". -/
theorem waitForRunCompletion1_throw_aborts :
    waitForRunCompletion1 (fun _ => PollStep.fetchThrow "network down")
      = (errObj "Error waiting for run completion: network down", 1) := by rfl

/-- C7 (amended): a non-OK HTTP status during polling consumes exactly
one attempt and polling continues from the next attempt, in both
revisions; a thrown fetch error likewise consumes one attempt and
continues in the later revision, but in the first revision it aborts
polling at once with an error outcome after that single attempt. -/
theorem polling_fetch_failure_consumes_attempt (polls : Nat → PollStep)
    (i fuel code : Nat) (msg : String) :
    (polls i = PollStep.notOk code →
      wfrcLoop1 polls (fuel + 1) i = bump (wfrcLoop1 polls fuel (i + 1)))
    ∧ (polls i = PollStep.notOk code →
      wfrcLoop3 polls (fuel + 1) i = bump (wfrcLoop3 polls fuel (i + 1)))
    ∧ (polls i = PollStep.fetchThrow msg →
      wfrcLoop3 polls (fuel + 1) i = bump (wfrcLoop3 polls fuel (i + 1)))
    ∧ (polls i = PollStep.fetchThrow msg →
      wfrcLoop1 polls (fuel + 1) i
        = (errObj ("Error waiting for run completion: " ++ msg), 1)) := by
  refine ⟨?_, ?_, ?_, ?_⟩
  · intro hp
    conv_lhs => rw [wfrcLoop1, hp]
  · intro hp
    conv_lhs => rw [wfrcLoop3, hp]
  · intro hp
    conv_lhs => rw [wfrcLoop3, hp]
  · intro hp
    conv_lhs => rw [wfrcLoop1, hp]

/-- Witness for C7: a stream with a non-OK fetch at attempt 0 and a
thrown fetch at attempt 1, each conjunct applied at its attempt. -/
theorem polling_fetch_failure_consumes_attempt_witness :
    (wfrcLoop1 (fun j => if j == 0 then PollStep.notOk 500 else PollStep.fetchThrow "boom")
        3 0
      = bump (wfrcLoop1 (fun j => if j == 0 then PollStep.notOk 500 else PollStep.fetchThrow "boom") 2 1))
    ∧ (wfrcLoop3 (fun j => if j == 0 then PollStep.notOk 500 else PollStep.fetchThrow "boom")
        3 1
      = bump (wfrcLoop3 (fun j => if j == 0 then PollStep.notOk 500 else PollStep.fetchThrow "boom") 2 2))
    ∧ (wfrcLoop1 (fun j => if j == 0 then PollStep.notOk 500 else PollStep.fetchThrow "boom")
        3 1
      = (errObj ("Error waiting for run completion: " ++ "boom"), 1)) :=
  ⟨(polling_fetch_failure_consumes_attempt _ 0 2 500 "boom").1 rfl,
   (polling_fetch_failure_consumes_attempt _ 1 2 500 "boom").2.2.1 rfl,
   (polling_fetch_failure_consumes_attempt _ 1 2 500 "boom").2.2.2 rfl⟩

/-- A character of the tool-name class is never whitespace. -/
theorem isAllowedChar_not_ws (c : Char) (h : isAllowedChar c = true) :
    isJsWhitespace c = false := by
  by_contra hw
  rw [Bool.not_eq_false] at hw
  have hm : c ∈ wsChars := by
    have hx := hw
    rw [isJsWhitespace] at hx
    exact List.mem_of_elem_eq_true hx
  fin_cases hm <;> exact absurd h (by decide)

/-- The whitespace-run replacement leaves a whitespace-free list
unchanged, whatever the run flag. -/
theorem replaceWsRunsAux_id (l : List Char) (b : Bool)
    (h : ∀ c ∈ l, isJsWhitespace c = false) : replaceWsRunsAux b l = l := by
  induction l generalizing b with
  | nil => rfl
  | cons c cs ih =>
    have hc : isJsWhitespace c = false := h c (List.mem_cons_self c cs)
    have hcs : ∀ x ∈ cs, isJsWhitespace x = false :=
      fun x hx => h x (List.mem_cons_of_mem c hx)
    unfold replaceWsRunsAux
    rw [hc]
    simp only [Bool.false_eq_true, if_false]
    rw [ih false hcs]

/-- C3 (counterexample): sanitizing the title `"!"` yields the empty
string, which does not match `^[a-zA-Z0-9_-]{1,64}$` — the sanitizer
enforces the character class but neither the minimum nor the maximum
length, refuting the claim as stated. -/
theorem formattedTitle_pattern_violation :
    formattedTitle "!" = "" ∧ matchesNamePattern (formattedTitle "!") = false
      ∧ matchesNamePattern "" = false := by
  refine ⟨rfl, rfl, rfl⟩

/-- C3 (amended): every character of the sanitized tool name lies in
`[a-zA-Z0-9_-]` (whitespace runs become `_`, everything else outside the
class is removed), and sanitization is idempotent; the result can,
however, be empty or longer than 64 characters, so membership in
`^[a-zA-Z0-9_-]{1,64}$` does not hold for every input. -/
theorem formattedTitle_allowed_and_idempotent (title : String) :
    (formattedTitle title).toList.all isAllowedChar = true
    ∧ formattedTitle (formattedTitle title) = formattedTitle title := by
  have hlist : (formattedTitle title).toList
      = (replaceWsRunsAux false title.toList).filter isAllowedChar := rfl
  have hall : ∀ c ∈ (formattedTitle title).toList, isAllowedChar c = true := by
    intro c hc
    rw [hlist] at hc
    exact (List.mem_filter.mp hc).2
  constructor
  · rw [List.all_eq_true]
    exact hall
  · have hnws : ∀ c ∈ (formattedTitle title).toList, isJsWhitespace c = false :=
      fun c hc => isAllowedChar_not_ws c (hall c hc)
    have h1 : replaceWsRunsAux false (formattedTitle title).toList
        = (formattedTitle title).toList := replaceWsRunsAux_id _ false hnws
    have h2 : ((formattedTitle title).toList).filter isAllowedChar
        = (formattedTitle title).toList := by
      rw [List.filter_eq_self]
      exact hall
    show ((replaceWsRunsAux false (formattedTitle title).toList).filter isAllowedChar).asString
      = formattedTitle title
    rw [h1, h2]
    rfl

/-- C4: for every descriptor whose input-schema properties are solely the
`random_string` sentinel, both revisions of `transformInputSchema` fall
back to a default one-string-property schema: the result has exactly one
property, that property is not the sentinel (it is `query`,
`profile_url` or `input`, depending only on the tool name), and its type
is `string`; the later revision always produces the `input` schema. -/
theorem transformInputSchema_sentinel_default (p : PropVal)
    (req : Option (List String)) (toolName : String) :
    (∃ sch, transformInputSchema (some (InSchema.mk (some [("random_string", p)]) req)) toolName
        = some sch
      ∧ sch.properties.length = 1
      ∧ sch.properties.all
          (fun kv => kv.1 != "random_string" && kv.2.type == "string") = true
      ∧ sch.required.all (fun r => r != "random_string") = true)
    ∧ transformInputSchemaV2 (some (InSchema.mk (some [("random_string", p)]) req)) toolName
        = defaultSchemaV2 := by
  constructor
  · have hstep : transformInputSchema
        (some (InSchema.mk (some [("random_string", p)]) req)) toolName
        = (if containsSubstr "Google_Search" toolName = true then
            some (OutSchema.mk "object"
              [("query", OutProp.mk "string" "Search query for Google")] ["query"])
          else if containsSubstr "LinkedIn_Profile" toolName = true then
            some (OutSchema.mk "object"
              [("profile_url", OutProp.mk "string" "LinkedIn profile URL to fetch data from")]
              ["profile_url"])
          else
            some (OutSchema.mk "object"
              [("input", OutProp.mk "string" "Input for the tool")] ["input"])) := rfl
    rw [hstep]
    split
    · exact ⟨_, rfl, rfl, rfl, rfl⟩
    · split
      · exact ⟨_, rfl, rfl, rfl, rfl⟩
      · exact ⟨_, rfl, rfl, rfl, rfl⟩
  · rfl

/-- C8 (counterexample): `transformInputSchema` does not map declared
property types into `{string, number, boolean}`: a property declared
`array` is passed through with type `array` (`type: value.type ||
"string"` only defaults a missing or empty type), so the normalized
schema can carry a property whose type is outside the set, refuting the
claim as stated. -/
theorem transformInputSchema_array_passthrough :
    (transformInputSchema
        (some (InSchema.mk (some [("items", PropVal.mk (some "array") none)]) none))
        "Data_Tool").map
      (fun sch => sch.properties.all
        (fun kv => kv.2.type == "string" || kv.2.type == "number" || kv.2.type == "boolean"))
      = some false
    ∧ transformInputSchema
        (some (InSchema.mk (some [("items", PropVal.mk (some "array") none)]) none))
        "Data_Tool"
      = some (OutSchema.mk "object"
          [("items", OutProp.mk "array" "Input parameter items")] ["items"]) := by
  constructor
  · rfl
  · rfl

/-- C8 (amended): the zod registration mapping (`cleanSchema`) does map
every declared property type into `{string, number, boolean}`, defaulting
to `string` for a missing or unrecognized type; `transformInputSchema`'s
own mapping (`typeOrDefault`) defaults only a missing or empty declared
type to `string` and passes any other declared type — `array` and
`object` included — through unchanged. -/
theorem cleanSchema_primitive_types (props : List (String × PropVal)) :
    (∀ kv, kv ∈ cleanSchema props →
      kv.2.ztype = "string" ∨ kv.2.ztype = "number" ∨ kv.2.ztype = "boolean")
    ∧ typeOrDefault none = "string"
    ∧ typeOrDefault (some "") = "string"
    ∧ typeOrDefault (some "array") = "array"
    ∧ typeOrDefault (some "object") = "object" := by
  refine ⟨?_, rfl, rfl, rfl, rfl⟩
  intro kv hkv
  simp only [cleanSchema, List.mem_map] at hkv
  obtain ⟨⟨k, pv⟩, _, rfl⟩ := hkv
  unfold cleanSchemaEntry
  split_ifs
  · exact Or.inl rfl
  · exact Or.inr (Or.inl rfl)
  · exact Or.inr (Or.inr rfl)
  · exact Or.inl rfl

/-- Witness for C8 at a concrete property declared `array`, which the
zod mapping sends to `string`. -/
theorem cleanSchema_primitive_types_witness :
    ("a", ZodField.mk "string" "string input for the tool")
        ∈ cleanSchema [("a", PropVal.mk (some "array") none)]
    ∧ ((ZodField.mk "string" "string input for the tool").ztype = "string"
        ∨ (ZodField.mk "string" "string input for the tool").ztype = "number"
        ∨ (ZodField.mk "string" "string input for the tool").ztype = "boolean") :=
  have hm : ("a", ZodField.mk "string" "string input for the tool")
      ∈ cleanSchema [("a", PropVal.mk (some "array") none)] := by decide
  ⟨hm, (cleanSchema_primitive_types [("a", PropVal.mk (some "array") none)]).1 _ hm⟩

/-- C10: the Google Search handler never fails on malformed parameters:
when the parameter value is not an object (or is `null`), or is an object
with no `query` field, the literal string `"No query provided"` is
substituted as the query and the run is still submitted with exactly
`{ query: "No query provided" }` as its inputs. -/
theorem googleSearch_missing_query_substitution (params : JsonValue)
    (h : isObjectLike params = false ∨ fieldOf params "query" = JsonValue.undefined) :
    googleSearchRunInputs params
      = JsonValue.obj [("query", JsonValue.str "No query provided")] := by
  unfold googleSearchRunInputs googleSearchQuery
  rcases h with h | h
  · rw [h]
    rfl
  · by_cases ho : isObjectLike params = true
    · simp only [ho, if_true]
      rw [h]
      rfl
    · rw [Bool.not_eq_true] at ho
      rw [ho]
      rfl

/-- Witness for C10 at the concrete non-object parameter `"hello"`. -/
theorem googleSearch_missing_query_substitution_witness :
    (isObjectLike (JsonValue.str "hello") = false
      ∨ fieldOf (JsonValue.str "hello") "query" = JsonValue.undefined)
    ∧ googleSearchRunInputs (JsonValue.str "hello")
        = JsonValue.obj [("query", JsonValue.str "No query provided")] :=
  have h : isObjectLike (JsonValue.str "hello") = false
      ∨ fieldOf (JsonValue.str "hello") "query" = JsonValue.undefined := Or.inl rfl
  ⟨h, googleSearch_missing_query_substitution _ h⟩

/-- A concrete behaviour of the platform `JSON.parse` on the demo stream:
it parses the payload record and rejects everything else. -/
def streamDemoParse : String → Option JsonValue := fun l =>
  if l = "\x7b\"ok\":true\x7d" then some (JsonValue.obj [("ok", JsonValue.bool true)])
  else none

/-- The demo stream: one bracketed log record, then one JSON payload
record, each newline-terminated. -/
def streamDemoText : String :=
  "[2025-01-01T00:00:00] [INFO] [api] run started" ++ "\n" ++ "\x7b\"ok\":true\x7d" ++ "\n"

/-- C5 (code bug): the first-revision `sanitizeAndParseStreamResponse`
discards log-prefixed records as claimed, but it never parses or returns
a JSON payload: its body ends after the skip checks with no `return`, so
every line — the JSON payload `{"ok":true}` included — yields `undefined`
and the stream loop never invokes the `onStream` sink.  This contradicts
the function's own doc comment ("Parsed JSON object or null if invalid")
and the later revision of the same function, which parses the payload and
forwards it. -/
theorem sanitizeStream_rev1_drops_json_payload :
    (∀ line, sanitizeAndParseStreamResponse1 line = none)
    ∧ sanitizeAndParseStreamResponse1 "\x7b\"ok\":true\x7d" = none
    ∧ startsWithLogTag "[2025-01-01T00:00:00] [INFO] [api] run started" = true
    ∧ forwardedContents1 streamDemoText = []
    ∧ sanitizeAndParseStreamResponse3 streamDemoParse "\x7b\"ok\":true\x7d"
        = some (JsonValue.obj [("ok", JsonValue.bool true)])
    ∧ forwardedContents3 streamDemoParse streamDemoText
        = [JsonValue.obj [("ok", JsonValue.bool true)]] := by
  refine ⟨?_, rfl, rfl, rfl, rfl, rfl⟩
  intro line
  unfold sanitizeAndParseStreamResponse1
  split
  · rfl
  · split
    · rfl
    · rfl
